import Mathlib

/-!
Verification of the Email_Camp campaign-send pipeline.

The embedding below translates the `EmailCampaignManager` module
(`gmail_test.py`, the inlined `mail - Copy.py` section): the
personalization engine (`personalize_email`), single-mail sending
(`send_single_email` with its SMTP precondition check and its local
logging of outcomes), the delivery log (`log_email`), and the campaign
dispatcher (`send_campaign`).

Python strings become `String` / `List Char`; `str.replace` (leftmost,
all occurrences, nonempty pattern — all patterns in this module are
literal `\x7b\x7b...\x7d\x7d` tokens, hence nonempty) is modelled by
`replaceAll`; `str.strip` by `pyStrip`.  MongoDB collections become
lists of documents inside a `DB` record; `find_one` becomes `List.find?`
on the key the code queries; `update_one` updates the first matching
document.  The SMTP session (connect / starttls / login / send) is an
external effect and is abstracted as a `Transport` oracle that either
succeeds or produces an error message; `datetime.now()` is an explicit
`now : Nat` parameter.  Exceptions become `Except String`.
-/

namespace EmailCamp

/-- Characters considered whitespace by Python's `str.strip`. -/
def isPySpace (c : Char) : Bool :=
  c = ' ' || c = '\t' || c = '\n' || c = '\r' || c = '\x0b' || c = '\x0c'

/-- Model of Python `str.strip` on a list of characters. -/
def pyStrip (l : List Char) : List Char :=
  ((l.dropWhile isPySpace).reverse.dropWhile isPySpace).reverse

/-- Boolean test that `pat` is a prefix of `s`. -/
def startsWith : List Char → List Char → Bool
  | [], _ => true
  | _ :: _, [] => false
  | p :: ps, c :: cs => if p = c then startsWith ps cs else false

/-- Fuel-driven worker for `replaceAll`; the fuel bounds the number of
scanning steps so the recursion is structural. -/
def replaceAllFuel (pat rep : List Char) : Nat → List Char → List Char
  | _, [] => []
  | 0, s => s
  | fuel + 1, c :: cs =>
    if startsWith pat (c :: cs) then
      rep ++ replaceAllFuel pat rep fuel (cs.drop (pat.length - 1))
    else
      c :: replaceAllFuel pat rep fuel cs

/-- Model of Python `str.replace` for a nonempty pattern: scan left to
right, replace each leftmost occurrence of `pat` by `rep` and continue
after the replacement.  (The module only ever calls `replace` with
nonempty placeholder tokens; for an empty pattern this model is the
identity.) -/
def replaceAll (pat rep s : List Char) : List Char :=
  if pat.isEmpty then s else replaceAllFuel pat rep s.length s

/-- The `Contact` dataclass: email plus name/company fields and the
open-ended custom-field mapping (a `Dict` in insertion order, modelled
as an association list). -/
structure Contact where
  email : String
  first_name : String := ""
  last_name : String := ""
  company : String := ""
  custom_fields : List (String × String) := []
deriving DecidableEq, Repr

/-- String-level wrapper of `replaceAll`, argument order as in
`content.replace(placeholder, value)`. -/
def strReplace (s pat rep : String) : String :=
  ⟨replaceAll pat.data rep.data s.data⟩

/-- String-level wrapper of `pyStrip`. -/
def pyStripS (s : String) : String := ⟨pyStrip s.data⟩

/-- `EmailCampaignManager.personalize_email`: replace the five fixed
placeholder tokens (dict insertion order: first_name, last_name, email,
company, full_name) and then one `\x7b\x7bcustom.<key>\x7d\x7d` token
per custom-field entry, each by Python `str.replace`. -/
def personalize_email (template_content : String) (contact : Contact) : String :=
  let content := template_content
  let content := strReplace content "\x7b\x7bfirst_name\x7d\x7d" contact.first_name
  let content := strReplace content "\x7b\x7blast_name\x7d\x7d" contact.last_name
  let content := strReplace content "\x7b\x7bemail\x7d\x7d" contact.email
  let content := strReplace content "\x7b\x7bcompany\x7d\x7d" contact.company
  let content := strReplace content "\x7b\x7bfull_name\x7d\x7d"
      (pyStripS (contact.first_name ++ " " ++ contact.last_name))
  contact.custom_fields.foldl
    (fun content kv => strReplace content ("\x7b\x7bcustom." ++ kv.1 ++ "\x7d\x7d") kv.2)
    content

/-! ## Specification-side view of personalization

To state what "replacing every placeholder" means we view a template as
a sequence of segments: literal chunks (brace-free) and placeholder
tokens `\x7b\x7bname\x7d\x7d` (brace-free name).  `render` flattens such
a sequence into the template string; `specPersonalize` maps every
recognized token to the contact's corresponding value and leaves
literal chunks and unrecognized tokens verbatim. -/

/-- Boolean check that a character sequence contains no curly brace. -/
def braceFreeB (l : List Char) : Bool := l.all (fun ch => ch != '\x7b' && ch != '\x7d')

/-- Propositional form of `braceFreeB`. -/
def BF (l : List Char) : Prop := ∀ ch ∈ l, ch ≠ '\x7b' ∧ ch ≠ '\x7d'

/-- The literal placeholder token for a given name:
`\x7b\x7b` ++ name ++ `\x7d\x7d`. -/
def tokStr (n : List Char) : List Char := '\x7b' :: '\x7b' :: (n ++ ['\x7d', '\x7d'])

/-- One template segment: a literal chunk or a placeholder token. -/
inductive Seg where
  | lit : List Char → Seg
  | tok : List Char → Seg
deriving DecidableEq, Repr

/-- The characters contributed by one segment. -/
def renderSeg : Seg → List Char
  | .lit l => l
  | .tok n => tokStr n

/-- Flatten a segment sequence into the template string. -/
def render : List Seg → List Char
  | [] => []
  | s :: ss => renderSeg s ++ render ss

/-- Well-formedness of one segment: its chunk or name is brace-free. -/
def segWFB : Seg → Bool
  | .lit l => braceFreeB l
  | .tok n => braceFreeB n

/-- Well-formedness of a whole segment sequence (Boolean). -/
def wfSegsB (segs : List Seg) : Bool := segs.all segWFB

/-- Well-formedness of one segment (propositional). -/
def SegBF : Seg → Prop
  | .lit l => BF l
  | .tok n => BF n

/-- Well-formedness of a segment sequence (propositional). -/
def WFs (segs : List Seg) : Prop := ∀ s ∈ segs, SegBF s

/-- Effect of one substitution `name ↦ value` on one segment. -/
def substSeg (p v : List Char) : Seg → Seg
  | .lit l => .lit l
  | .tok n => if n = p then .lit v else .tok n

/-- Run a list of substitutions `(name, value)` over a string, each via
`replaceAll` on the rendered token — one per `content.replace` call of
`personalize_email`, in order. -/
def applySubsts (subs : List (List Char × List Char)) (s : List Char) : List Char :=
  subs.foldl (fun acc pv => replaceAll (tokStr pv.1) pv.2 acc) s

/-- First-match association lookup on substitution lists. -/
def lookupN (n : List Char) : List (List Char × List Char) → Option (List Char)
  | [] => none
  | pv :: rest => if pv.1 = n then some pv.2 else lookupN n rest

/-- The substitution sequence `personalize_email` performs for a
contact: the five fixed placeholders, in dict insertion order, then one
`custom.<key>` substitution per custom-field entry. -/
def substNames (c : Contact) : List (List Char × List Char) :=
  [("first_name".data, c.first_name.data),
   ("last_name".data, c.last_name.data),
   ("email".data, c.email.data),
   ("company".data, c.company.data),
   ("full_name".data, pyStrip ((c.first_name ++ " " ++ c.last_name).data))]
  ++ c.custom_fields.map (fun kv => ("custom.".data ++ kv.1.data, kv.2.data))

/-- The value a recognized placeholder name stands for, if any:
`first_name`, `last_name`, `email`, `company`, `full_name` (first and
last joined by a space and stripped), or `custom.<key>` for a key
present in the custom-field mapping; `none` for unrecognized names and
absent custom fields. -/
def recog (c : Contact) (n : List Char) : Option (List Char) :=
  if "first_name".data = n then some c.first_name.data
  else if "last_name".data = n then some c.last_name.data
  else if "email".data = n then some c.email.data
  else if "company".data = n then some c.company.data
  else if "full_name".data = n then some (pyStrip ((c.first_name ++ " " ++ c.last_name).data))
  else lookupN n (c.custom_fields.map (fun kv => ("custom.".data ++ kv.1.data, kv.2.data)))

/-- Specification of personalization on one segment: recognized tokens
become their value, unrecognized tokens and literal chunks stay
verbatim. -/
def specSubstSeg (c : Contact) : Seg → Seg
  | .lit l => .lit l
  | .tok n =>
    match recog c n with
    | some v => .lit v
    | none => .tok n

/-- Specification of personalization on a whole template: simultaneous
replacement of every recognized placeholder occurrence, everything else
untouched. -/
def specPersonalize (c : Contact) (segs : List Seg) : List Char :=
  render (segs.map (specSubstSeg c))

/-- A contact none of whose field values, custom keys or custom values
contains a curly brace (so no value smuggles a placeholder token in). -/
def cleanContact (c : Contact) : Bool :=
  braceFreeB c.first_name.data && braceFreeB c.last_name.data &&
  braceFreeB c.email.data && braceFreeB c.company.data &&
  c.custom_fields.all (fun kv => braceFreeB kv.1.data && braceFreeB kv.2.data)

/-- A substitution list whose names and values are all brace-free. -/
def cleanSubsProp (subs : List (List Char × List Char)) : Prop :=
  ∀ pv ∈ subs, BF pv.1 ∧ BF pv.2

/-! ## Data model of the MongoDB documents used by the dispatcher -/

/-- The `EmailTemplate` dataclass (the `_id` key is popped before the
constructor call, so it is not a field here). -/
structure EmailTemplate where
  name : String
  subject : String
  body : String
  html_body : String := ""
  created_at : Nat := 0
deriving DecidableEq, Repr

/-- A campaign document.  The first seven fields are the `Campaign`
dataclass fields stored by `create_campaign` (via `asdict`); timestamps
are abstract `Nat`s.  `total_recipient` (note: no trailing `s`) is the
extra key that `send_campaign`'s `$set` update writes into the Mongo
document; it does not exist in the dataclass and is absent (`none`)
until that update runs. -/
structure CampaignDoc where
  name : String
  template_id : String
  contact_list_ids : List String
  created_at : Nat := 0
  sent_at : Option Nat := none
  status : String := "draft"
  total_recipients : Nat := 0
  sent_count : Nat := 0
  failed_count : Nat := 0
  total_recipient : Option Nat := none
deriving DecidableEq, Repr

/-- A contact-list document: its `contact_ids` member references. -/
structure ContactListDoc where
  name : String
  contact_ids : List String
deriving DecidableEq, Repr

/-- One document of the `email_logs` collection, as written by
`log_email`. -/
structure LogEntry where
  to_email : String
  subject : String
  status : String
  timestamp : Nat
  error_message : String := ""
deriving DecidableEq, Repr

/-- The five collections the dispatcher touches.  `templates`,
`contact_lists` and `contacts` are keyed by their (opaque, string
rendered) Mongo `_id`; campaigns are looked up by `name`. -/
structure DB where
  campaigns : List CampaignDoc
  templates : List (String × EmailTemplate)
  contact_lists : List (String × ContactListDoc)
  contacts : List (String × Contact)
  email_logs : List LogEntry
deriving DecidableEq, Repr

/-- `campaigns_collection.find_one(\x7b"name": name\x7d)`. -/
def findCampaign (db : DB) (name : String) : Option CampaignDoc :=
  db.campaigns.find? (fun d => d.name = name)

/-- `templates_collection.find_one(\x7b"_id": ObjectId(id)\x7d)`. -/
def findTemplate (db : DB) (id : String) : Option EmailTemplate :=
  (db.templates.find? (fun p => p.1 = id)).map (·.2)

/-- `contact_lists_collection.find_one(\x7b"_id": ObjectId(id)\x7d)`. -/
def findContactList (db : DB) (id : String) : Option ContactListDoc :=
  (db.contact_lists.find? (fun p => p.1 = id)).map (·.2)

/-- `contacts_collection.find_one(\x7b"_id": ObjectId(id)\x7d)`. -/
def findContact (db : DB) (id : String) : Option Contact :=
  (db.contacts.find? (fun p => p.1 = id)).map (·.2)

/-- `update_one` on the campaigns collection: rewrite the first document
matching `name` with `f` (the `name` index is unique, so at most one
document matches). -/
def updateFirstCampaign (name : String) (f : CampaignDoc → CampaignDoc) :
    List CampaignDoc → List CampaignDoc
  | [] => []
  | d :: ds => if d.name = name then f d :: ds else d :: updateFirstCampaign name f ds

/-! ## SMTP configuration and the transport oracle -/

/-- The `smtp_config` dict; `__init__` leaves `server` as the empty
string until `configure_smtp` is called. -/
structure SmtpConfig where
  server : String
  port : Nat := 587
  username : String := ""
  password : String := ""
  use_tls : Bool := true
deriving DecidableEq, Repr

/-- Outcome of one SMTP session (connect, optional STARTTLS, login,
`send_message`, quit): success, or an exception rendered by `str(e)`. -/
inductive TransportResult where
  | ok : TransportResult
  | err : String → TransportResult
deriving DecidableEq, Repr

/-- External transport oracle: given recipient address, subject, plain
body and HTML body, the outcome of the SMTP session for that message. -/
def Transport : Type := String → String → String → String → TransportResult

/-- `EmailCampaignManager.log_email`: append one document to the
`email_logs` collection. -/
def log_email (logs : List LogEntry) (to_email subject status : String)
    (now : Nat) (error_message : String := "") : List LogEntry :=
  logs ++ [⟨to_email, subject, status, now, error_message⟩]

/-- `EmailCampaignManager.send_single_email` (attachments elided: they
are passed through to the message unchanged and do not affect control
flow).  Before any message construction it raises `ValueError` if the
SMTP server is unconfigured — this is the only exception it can
propagate, since the whole session body is wrapped in `try/except`.
Inside the `try`, a transport success logs status `sent` and returns
`True`; any exception logs status `failed` with `str(e)` and returns
`False`. -/
def send_single_email (cfg : SmtpConfig) (transport : Transport)
    (to_email subject body html_body : String) (logs : List LogEntry) (now : Nat) :
    Except String (Bool × List LogEntry) :=
  if cfg.server = "" then
    .error "SMTP configuration not set. Use configure_smtp() first."
  else
    match transport to_email subject body html_body with
    | .ok => .ok (true, log_email logs to_email subject "sent" now)
    | .err e => .ok (false, log_email logs to_email subject "failed" now e)

/-! ## The campaign dispatcher -/

/-- Recipient resolution inside `send_campaign`: for each referenced
list id, fetch the list document (skip if gone), then fetch each member
contact (skip if gone), appending in order. -/
def resolveContacts (db : DB) (list_ids : List String) : List Contact :=
  list_ids.flatMap (fun lid =>
    match findContactList db lid with
    | none => []
    | some ldoc => ldoc.contact_ids.filterMap (findContact db))

/-- Deduplication inside `send_campaign`: keep a contact only if its
email was not seen before, preserving order (`seen` plays the role of
the `seen_emails` set). -/
def dedupAux (seen : List String) : List Contact → List Contact
  | [] => []
  | c :: cs =>
    if c.email ∈ seen then dedupAux seen cs
    else c :: dedupAux (c.email :: seen) cs

/-- `unique_contacts` as built by `send_campaign` from `all_contacts`. -/
def dedupByEmail (cs : List Contact) : List Contact := dedupAux [] cs

/-- One iteration of `send_campaign`'s per-recipient loop, acting on the
accumulator `(sent_count, failed_count, email_logs)`: personalize
subject, plain body and (when nonempty) HTML body, call
`send_single_email`, and classify the outcome.  A raised exception (the
`.error` case — only the SMTP-unconfigured `ValueError`, since
personalization is total) is caught by the loop's `except`: the failed
count is bumped and nothing is logged. -/
def dispatchStep (cfg : SmtpConfig) (transport : Transport) (template : EmailTemplate)
    (now : Nat) (acc : Nat × Nat × List LogEntry) (contact : Contact) :
    Nat × Nat × List LogEntry :=
  let personalized_subject := personalize_email template.subject contact
  let personalized_body := personalize_email template.body contact
  let personalized_html :=
    if template.html_body = "" then "" else personalize_email template.html_body contact
  match send_single_email cfg transport contact.email personalized_subject
      personalized_body personalized_html acc.2.2 now with
  | .error _ => (acc.1, acc.2.1 + 1, acc.2.2)
  | .ok (true, logs) => (acc.1 + 1, acc.2.1, logs)
  | .ok (false, logs) => (acc.1, acc.2.1 + 1, logs)

/-- The single `$set` update `send_campaign` performs on the campaign
document after the loop.  Note the written key `total_recipient` — the
`Campaign` dataclass field `total_recipients` is left untouched. -/
def campaignWriteback (total sent failed now : Nat) (d : CampaignDoc) : CampaignDoc :=
  { d with
    status := "sent"
    sent_at := some now
    total_recipient := some total
    sent_count := sent
    failed_count := failed }

/-- The send statistics dict `\x7b"sent": _, "failed": _, "total": _\x7d`
returned by `send_campaign`. -/
structure Stats where
  sent : Nat
  failed : Nat
  total : Nat
deriving DecidableEq, Repr

/-- `EmailCampaignManager.send_campaign`: resolve campaign and template
(raising `ValueError` with the untouched state on either miss), gather
and deduplicate recipients, run the per-recipient loop, then apply the
single campaign write-back and return the statistics. -/
def send_campaign (db : DB) (cfg : SmtpConfig) (transport : Transport)
    (campaign_name : String) (now : Nat) : Except String Stats × DB :=
  match findCampaign db campaign_name with
  | none => (.error ("Campaign not found: " ++ campaign_name), db)
  | some campaign_doc =>
    match findTemplate db campaign_doc.template_id with
    | none => (.error ("Template not found for campaign: " ++ campaign_name), db)
    | some template =>
      let all_contacts := resolveContacts db campaign_doc.contact_list_ids
      let unique_contacts := dedupByEmail all_contacts
      let total_count := unique_contacts.length
      let res := unique_contacts.foldl (dispatchStep cfg transport template now)
        (0, 0, db.email_logs)
      let db' : DB :=
        { db with
          email_logs := res.2.2
          campaigns := updateFirstCampaign campaign_name
            (campaignWriteback total_count res.1 res.2.1 now) db.campaigns }
      (.ok ⟨res.1, res.2.1, total_count⟩, db')

/-! ## Concrete fixtures for witnesses and counterexamples -/

/-- A transport whose SMTP session always succeeds. -/
def alwaysOk : Transport := fun _ _ _ _ => .ok

/-- A transport whose SMTP session always raises, with message `boom`. -/
def alwaysFail : Transport := fun _ _ _ _ => .err "boom"

/-- A configured SMTP setup (as after `configure_smtp`). -/
def cfgSet : SmtpConfig := { server := "smtp.example.com", username := "u", password := "p" }

/-- The initial SMTP setup from `__init__`: empty server string. -/
def cfgUnset : SmtpConfig := { server := "" }

/-- Sample template stored under id `t1`. -/
def sampleTemplate : EmailTemplate := { name := "T", subject := "S", body := "B" }

/-- Sample contact stored under id `c1`. -/
def sampleContact : Contact := { email := "a@x.com", first_name := "Ana" }

/-- One campaign, one template, one list, one contact. -/
def sampleDB : DB :=
  { campaigns := [{ name := "camp", template_id := "t1", contact_list_ids := ["l1"] }]
    templates := [("t1", sampleTemplate)]
    contact_lists := [("l1", ⟨"L", ["c1"]⟩)]
    contacts := [("c1", sampleContact)]
    email_logs := [] }

/-- The spec's dedup scenario: list A holds `a@x.com`, list B holds
`a@x.com` and `b@x.com`, and the campaign references both lists. -/
def twoListDB : DB :=
  { campaigns := [{ name := "camp", template_id := "t1", contact_list_ids := ["lA", "lB"] }]
    templates := [("t1", sampleTemplate)]
    contact_lists := [("lA", ⟨"A", ["c1"]⟩), ("lB", ⟨"B", ["c1", "c2"]⟩)]
    contacts := [("c1", ⟨"a@x.com", "", "", "", []⟩), ("c2", ⟨"b@x.com", "", "", "", []⟩)]
    email_logs := [] }

/-- A database with no documents at all. -/
def emptyDB : DB := { campaigns := [], templates := [], contact_lists := [], contacts := [],
                      email_logs := [] }

/-- A campaign whose template reference does not resolve. -/
def noTemplateDB : DB :=
  { campaigns := [{ name := "camp", template_id := "t1", contact_list_ids := ["l1"] }]
    templates := []
    contact_lists := [("l1", ⟨"L", ["c1"]⟩)]
    contacts := [("c1", sampleContact)]
    email_logs := [] }

/-- A campaign whose only contact-list reference no longer resolves, so
it has zero resolvable recipients. -/
def goneListDB : DB :=
  { campaigns := [{ name := "camp", template_id := "t1", contact_list_ids := ["gone"] }]
    templates := [("t1", sampleTemplate)]
    contact_lists := []
    contacts := []
    email_logs := [] }

/-! ## Helper lemmas about the dispatch loop -/

/-- Each loop iteration adds exactly one to `sent_count + failed_count`. -/
lemma dispatchStep_sum (cfg : SmtpConfig) (tr : Transport) (t : EmailTemplate)
    (now : Nat) (s f : Nat) (lg : List LogEntry) (c : Contact) :
    (dispatchStep cfg tr t now (s, f, lg) c).1 +
      (dispatchStep cfg tr t now (s, f, lg) c).2.1 = s + f + 1 := by
  simp only [dispatchStep]
  split <;> simp <;> omega

/-- When the SMTP server is configured, each loop iteration appends
exactly one log entry. -/
lemma dispatchStep_logs_config (cfg : SmtpConfig) (tr : Transport) (t : EmailTemplate)
    (now : Nat) (s f : Nat) (lg : List LogEntry) (c : Contact)
    (h : cfg.server ≠ "") :
    ∃ e, (dispatchStep cfg tr t now (s, f, lg) c).2.2 = lg ++ [e] := by
  simp only [dispatchStep, send_single_email, log_email, if_neg h]
  rcases htr : tr c.email (personalize_email t.subject c) (personalize_email t.body c)
      (if t.html_body = "" then "" else personalize_email t.html_body c) with _ | m <;>
    exact ⟨_, rfl⟩

/-- When the SMTP server is unconfigured, each loop iteration bumps the
failed count and leaves the log untouched. -/
lemma dispatchStep_unconfig (cfg : SmtpConfig) (tr : Transport) (t : EmailTemplate)
    (now : Nat) (s f : Nat) (lg : List LogEntry) (c : Contact)
    (h : cfg.server = "") :
    dispatchStep cfg tr t now (s, f, lg) c = (s, f + 1, lg) := by
  simp only [dispatchStep, send_single_email, if_pos h]

/-- Over the whole loop, `sent + failed` equals the starting sum plus
the number of recipients processed. -/
lemma foldl_dispatch_sum (cfg : SmtpConfig) (tr : Transport) (t : EmailTemplate)
    (now : Nat) :
    ∀ (cs : List Contact) (s f : Nat) (lg : List LogEntry),
      (cs.foldl (dispatchStep cfg tr t now) (s, f, lg)).1 +
        (cs.foldl (dispatchStep cfg tr t now) (s, f, lg)).2.1 = s + f + cs.length := by
  intro cs
  induction cs with
  | nil => intro s f lg; simp
  | cons c cs ih =>
    intro s f lg
    have hstep := dispatchStep_sum cfg tr t now s f lg c
    have hrec := ih (dispatchStep cfg tr t now (s, f, lg) c).1
      (dispatchStep cfg tr t now (s, f, lg) c).2.1
      (dispatchStep cfg tr t now (s, f, lg) c).2.2
    rw [show ((dispatchStep cfg tr t now (s, f, lg) c).1,
        (dispatchStep cfg tr t now (s, f, lg) c).2.1,
        (dispatchStep cfg tr t now (s, f, lg) c).2.2) =
        dispatchStep cfg tr t now (s, f, lg) c from rfl] at hrec
    simp only [List.foldl_cons, List.length_cons] at *
    omega

/-- Over the whole loop with a configured server, the log grows by
exactly one entry per recipient, by appending at the end. -/
lemma foldl_dispatch_logs (cfg : SmtpConfig) (tr : Transport) (t : EmailTemplate)
    (now : Nat) (h : cfg.server ≠ "") :
    ∀ (cs : List Contact) (s f : Nat) (lg : List LogEntry),
      ∃ newLogs, (cs.foldl (dispatchStep cfg tr t now) (s, f, lg)).2.2 = lg ++ newLogs ∧
        newLogs.length = cs.length := by
  intro cs
  induction cs with
  | nil => intro s f lg; exact ⟨[], by simp⟩
  | cons c cs ih =>
    intro s f lg
    obtain ⟨e, he⟩ := dispatchStep_logs_config cfg tr t now s f lg c h
    obtain ⟨rest, hrest, hlen⟩ := ih (dispatchStep cfg tr t now (s, f, lg) c).1
      (dispatchStep cfg tr t now (s, f, lg) c).2.1
      (dispatchStep cfg tr t now (s, f, lg) c).2.2
    rw [show ((dispatchStep cfg tr t now (s, f, lg) c).1,
        (dispatchStep cfg tr t now (s, f, lg) c).2.1,
        (dispatchStep cfg tr t now (s, f, lg) c).2.2) =
        dispatchStep cfg tr t now (s, f, lg) c from rfl] at hrest
    refine ⟨e :: rest, ?_, by simp [hlen]⟩
    simp only [List.foldl_cons]
    rw [hrest, he]
    simp

/-- Over the whole loop with an unconfigured server, every recipient is
counted as failed and the log is untouched. -/
lemma foldl_dispatch_unconfig (cfg : SmtpConfig) (tr : Transport) (t : EmailTemplate)
    (now : Nat) (h : cfg.server = "") :
    ∀ (cs : List Contact) (s f : Nat) (lg : List LogEntry),
      cs.foldl (dispatchStep cfg tr t now) (s, f, lg) = (s, f + cs.length, lg) := by
  intro cs
  induction cs with
  | nil => intro s f lg; simp
  | cons c cs ih =>
    intro s f lg
    simp only [List.foldl_cons, dispatchStep_unconfig cfg tr t now s f lg c h, ih,
      List.length_cons]
    congr 2
    omega

/-- Inversion of a successful dispatch: the campaign and template
resolve, and the returned statistics and final state are exactly the
loop results followed by the single campaign write-back. -/
lemma sendCampaign_ok_inv (db : DB) (cfg : SmtpConfig) (tr : Transport)
    (name : String) (now : Nat) (stats : Stats)
    (h : (send_campaign db cfg tr name now).1 = .ok stats) :
    ∃ cdoc t, findCampaign db name = some cdoc ∧
      findTemplate db cdoc.template_id = some t ∧
      stats = ⟨(((dedupByEmail (resolveContacts db cdoc.contact_list_ids)).foldl
                  (dispatchStep cfg tr t now) (0, 0, db.email_logs))).1,
               (((dedupByEmail (resolveContacts db cdoc.contact_list_ids)).foldl
                  (dispatchStep cfg tr t now) (0, 0, db.email_logs))).2.1,
               (dedupByEmail (resolveContacts db cdoc.contact_list_ids)).length⟩ ∧
      (send_campaign db cfg tr name now).2 =
        { db with
          email_logs := (((dedupByEmail (resolveContacts db cdoc.contact_list_ids)).foldl
            (dispatchStep cfg tr t now) (0, 0, db.email_logs))).2.2
          campaigns := updateFirstCampaign name
            (campaignWriteback (dedupByEmail (resolveContacts db cdoc.contact_list_ids)).length
              (((dedupByEmail (resolveContacts db cdoc.contact_list_ids)).foldl
                (dispatchStep cfg tr t now) (0, 0, db.email_logs))).1
              (((dedupByEmail (resolveContacts db cdoc.contact_list_ids)).foldl
                (dispatchStep cfg tr t now) (0, 0, db.email_logs))).2.1 now)
            db.campaigns } := by
  cases hc : findCampaign db name with
  | none =>
    simp only [send_campaign, hc] at h
    exact Except.noConfusion h
  | some cdoc =>
    cases ht : findTemplate db cdoc.template_id with
    | none =>
      simp only [send_campaign, hc, ht] at h
      exact Except.noConfusion h
    | some t =>
      simp only [send_campaign, hc, ht, Except.ok.injEq] at h
      exact ⟨cdoc, t, rfl, ht, h.symm, by simp only [send_campaign, hc, ht]⟩

/-! ## Helper lemmas about deduplication and the campaign update -/

/-- Deduplication yields a subsequence of its input (first-seen order is
preserved). -/
lemma dedupAux_sublist : ∀ (cs : List Contact) (seen : List String),
    (dedupAux seen cs).Sublist cs := by
  intro cs
  induction cs with
  | nil => intro seen; simp [dedupAux]
  | cons c cs ih =>
    intro seen
    by_cases hm : c.email ∈ seen
    · simp only [dedupAux, if_pos hm]
      exact (ih seen).cons c
    · simp only [dedupAux, if_neg hm]
      exact (ih (c.email :: seen)).cons₂ c

/-- Emails of deduplicated contacts avoid the already-seen set. -/
lemma dedupAux_not_seen : ∀ (cs : List Contact) (seen : List String) (c : Contact),
    c ∈ dedupAux seen cs → c.email ∉ seen := by
  intro cs
  induction cs with
  | nil => intro seen c hc; simp [dedupAux] at hc
  | cons d cs ih =>
    intro seen c hc
    by_cases hm : d.email ∈ seen
    · rw [dedupAux, if_pos hm] at hc
      exact ih seen c hc
    · rw [dedupAux, if_neg hm] at hc
      rcases List.mem_cons.mp hc with hc | hc
      · rw [hc]; exact hm
      · intro hs
        exact ih (d.email :: seen) c hc (List.mem_cons_of_mem _ hs)

/-- The emails of the deduplicated sequence contain no duplicates: each
email address appears exactly once. -/
lemma dedupAux_nodup : ∀ (cs : List Contact) (seen : List String),
    ((dedupAux seen cs).map Contact.email).Nodup := by
  intro cs
  induction cs with
  | nil => intro seen; simp [dedupAux]
  | cons d cs ih =>
    intro seen
    by_cases hm : d.email ∈ seen
    · rw [dedupAux, if_pos hm]; exact ih seen
    · rw [dedupAux, if_neg hm]
      refine List.nodup_cons.mpr ⟨?_, ih (d.email :: seen)⟩
      intro hmem
      obtain ⟨c, hc, hce⟩ := List.mem_map.mp hmem
      exact dedupAux_not_seen cs (d.email :: seen) c hc (by rw [hce]; exact List.mem_cons_self _ _)

/-- Every resolved contact's email survives deduplication (or was
already in the seen set). -/
lemma dedupAux_covers : ∀ (cs : List Contact) (seen : List String) (c : Contact),
    c ∈ cs → c.email ∈ seen ∨ c.email ∈ (dedupAux seen cs).map Contact.email := by
  intro cs
  induction cs with
  | nil => intro seen c hc; simp at hc
  | cons d cs ih =>
    intro seen c hc
    by_cases hm : d.email ∈ seen
    · rw [dedupAux, if_pos hm]
      rcases List.mem_cons.mp hc with hc | hc
      · left; rw [hc]; exact hm
      · exact ih seen c hc
    · rw [dedupAux, if_neg hm]
      rcases List.mem_cons.mp hc with hc | hc
      · right; rw [hc]; simp
      · rcases ih (d.email :: seen) c hc with hs | hs
        · rcases List.mem_cons.mp hs with hs | hs
          · right; rw [hs]; simp
          · left; exact hs
        · right; simp [hs]

/-- `find?` after an in-place update of the first document with the
queried name: when the update preserves the name, the lookup returns the
updated version of whatever it returned before. -/
lemma find?_updateFirstCampaign (name : String) (f : CampaignDoc → CampaignDoc)
    (hf : ∀ d, (f d).name = d.name) :
    ∀ l : List CampaignDoc,
      (updateFirstCampaign name f l).find? (fun d => d.name = name) =
        (l.find? (fun d => d.name = name)).map f := by
  intro l
  induction l with
  | nil => simp [updateFirstCampaign]
  | cons d ds ih =>
    by_cases hd : d.name = name
    · rw [updateFirstCampaign, if_pos hd]
      rw [List.find?_cons_of_pos _ (by simp [hf, hd]), List.find?_cons_of_pos _ (by simp [hd])]
      simp
    · rw [updateFirstCampaign, if_neg hd]
      rw [List.find?_cons_of_neg _ (by simp [hd]), List.find?_cons_of_neg _ (by simp [hd])]
      exact ih

/-- The campaign write-back does not change the document's name. -/
lemma campaignWriteback_name (total sent failed now : Nat) (d : CampaignDoc) :
    (campaignWriteback total sent failed now d).name = d.name := rfl

/-! ## Claim theorems: the dispatcher -/

/-- C1: every completed `send_campaign` run returns statistics with
`sent + failed = total`, where `total` is the number of deduplicated
resolved recipients (each recipient contributes exactly one unit to the
sum, by `dispatchStep_sum`). -/
theorem sendCampaign_sent_add_failed_eq_total
    (db : DB) (cfg : SmtpConfig) (tr : Transport) (name : String) (now : Nat) (stats : Stats)
    (h : (send_campaign db cfg tr name now).1 = .ok stats) :
    stats.sent + stats.failed = stats.total ∧
    ∃ cdoc, findCampaign db name = some cdoc ∧
      stats.total = (dedupByEmail (resolveContacts db cdoc.contact_list_ids)).length := by
  obtain ⟨cdoc, t, hc, ht, hstats, -⟩ := sendCampaign_ok_inv db cfg tr name now stats h
  subst hstats
  refine ⟨?_, cdoc, hc, rfl⟩
  have := foldl_dispatch_sum cfg tr t now
    (dedupByEmail (resolveContacts db cdoc.contact_list_ids)) 0 0 db.email_logs
  simpa using this

/-- Witness for C1: a concrete one-recipient run with a succeeding
transport completes with `1 + 0 = 1`. -/
theorem sendCampaign_sent_add_failed_eq_total_witness :
    (send_campaign sampleDB cfgSet alwaysOk "camp" 7).1 = .ok ⟨1, 0, 1⟩ ∧
    ((1 : Nat) + 0 = 1 ∧ ∃ cdoc, findCampaign sampleDB "camp" = some cdoc ∧
      (1 : Nat) = (dedupByEmail (resolveContacts sampleDB cdoc.contact_list_ids)).length) :=
  ⟨rfl, sendCampaign_sent_add_failed_eq_total sampleDB cfgSet alwaysOk "camp" 7 ⟨1, 0, 1⟩ rfl⟩

/-- C2: recipient resolution deduplicates by email address, preserving
first-seen order: the send sequence is a subsequence of the resolved
contacts, its emails are pairwise distinct, every resolved contact's
email is represented, and its size is the returned `total`. -/
theorem sendCampaign_dedup_recipients
    (db : DB) (cfg : SmtpConfig) (tr : Transport) (name : String) (now : Nat) (stats : Stats)
    (h : (send_campaign db cfg tr name now).1 = .ok stats) :
    ∃ cdoc, findCampaign db name = some cdoc ∧
      stats.total = (dedupByEmail (resolveContacts db cdoc.contact_list_ids)).length ∧
      ((dedupByEmail (resolveContacts db cdoc.contact_list_ids)).map Contact.email).Nodup ∧
      (dedupByEmail (resolveContacts db cdoc.contact_list_ids)).Sublist
        (resolveContacts db cdoc.contact_list_ids) ∧
      ∀ c ∈ resolveContacts db cdoc.contact_list_ids,
        c.email ∈ (dedupByEmail (resolveContacts db cdoc.contact_list_ids)).map Contact.email := by
  obtain ⟨cdoc, t, hc, ht, hstats, -⟩ := sendCampaign_ok_inv db cfg tr name now stats h
  subst hstats
  refine ⟨cdoc, hc, rfl, dedupAux_nodup _ [], dedupAux_sublist _ [], ?_⟩
  intro c hcmem
  rcases dedupAux_covers (resolveContacts db cdoc.contact_list_ids) [] c hcmem with hs | hs
  · simp at hs
  · exact hs

/-- Witness for C2: the spec's two-list scenario (`a@x.com` in both
lists, `b@x.com` in one) completes with `total = 2`. -/
theorem sendCampaign_dedup_recipients_witness :
    (send_campaign twoListDB cfgSet alwaysOk "camp" 7).1 = .ok ⟨2, 0, 2⟩ ∧
    ∃ cdoc, findCampaign twoListDB "camp" = some cdoc ∧
      (Stats.mk 2 0 2).total = (dedupByEmail (resolveContacts twoListDB cdoc.contact_list_ids)).length ∧
      ((dedupByEmail (resolveContacts twoListDB cdoc.contact_list_ids)).map Contact.email).Nodup ∧
      (dedupByEmail (resolveContacts twoListDB cdoc.contact_list_ids)).Sublist
        (resolveContacts twoListDB cdoc.contact_list_ids) ∧
      ∀ c ∈ resolveContacts twoListDB cdoc.contact_list_ids,
        c.email ∈ (dedupByEmail (resolveContacts twoListDB cdoc.contact_list_ids)).map Contact.email :=
  ⟨rfl, sendCampaign_dedup_recipients twoListDB cfgSet alwaysOk "camp" 7 ⟨2, 0, 2⟩ rfl⟩

/-- C3: when the campaign name does not resolve, or its template
reference does not resolve, `send_campaign` raises the corresponding
`not found` error and the state is returned untouched: no log entry is
appended and no campaign document is created or mutated. -/
theorem sendCampaign_notFound_no_partial_state
    (db : DB) (cfg : SmtpConfig) (tr : Transport) (name : String) (now : Nat) :
    (findCampaign db name = none →
      send_campaign db cfg tr name now = (.error ("Campaign not found: " ++ name), db)) ∧
    ∀ cdoc, findCampaign db name = some cdoc → findTemplate db cdoc.template_id = none →
      send_campaign db cfg tr name now =
        (.error ("Template not found for campaign: " ++ name), db) := by
  constructor
  · intro hc; simp only [send_campaign, hc]
  · intro cdoc hc ht; simp only [send_campaign, hc, ht]

/-- Witness for C3: a missing campaign name and a campaign with a
dangling template reference both fail with the untouched state. -/
theorem sendCampaign_notFound_no_partial_state_witness :
    send_campaign emptyDB cfgSet alwaysOk "nope" 0 =
      (.error ("Campaign not found: " ++ "nope"), emptyDB) ∧
    send_campaign noTemplateDB cfgSet alwaysOk "camp" 0 =
      (.error ("Template not found for campaign: " ++ "camp"), noTemplateDB) :=
  ⟨(sendCampaign_notFound_no_partial_state emptyDB cfgSet alwaysOk "nope" 0).1 rfl,
   (sendCampaign_notFound_no_partial_state noTemplateDB cfgSet alwaysOk "camp" 0).2
     { name := "camp", template_id := "t1", contact_list_ids := ["l1"] } rfl rfl⟩

/-- C4: a per-recipient transport failure is recovered locally: the loop
step returns normally with `failed` incremented and exactly one appended
log entry of status `failed` carrying the transport's error message; and
whenever campaign and template resolve, `send_campaign` completes with
statistics for any transport whatsoever (no per-recipient failure
propagates). -/
theorem transport_failure_recovered
    (db : DB) (cfg : SmtpConfig) (tr : Transport) (name : String) (now : Nat)
    (cdoc : CampaignDoc) (t : EmailTemplate)
    (h1 : findCampaign db name = some cdoc)
    (h2 : findTemplate db cdoc.template_id = some t) :
    (∃ stats, (send_campaign db cfg tr name now).1 = .ok stats) ∧
    ∀ (s f : Nat) (lg : List LogEntry) (c : Contact) (m : String),
      cfg.server ≠ "" →
      tr c.email (personalize_email t.subject c) (personalize_email t.body c)
        (if t.html_body = "" then "" else personalize_email t.html_body c) = .err m →
      dispatchStep cfg tr t now (s, f, lg) c =
        (s, f + 1, log_email lg c.email (personalize_email t.subject c) "failed" now m) := by
  constructor
  · simp only [send_campaign, h1, h2]
    exact ⟨_, rfl⟩
  · intro s f lg c m hs htr
    simp only [dispatchStep, send_single_email, if_neg hs, htr]

/-- Witness for C4: with an always-raising transport the one-recipient
run still completes, and the loop step records the failure locally. -/
theorem transport_failure_recovered_witness :
    (∃ stats, (send_campaign sampleDB cfgSet alwaysFail "camp" 7).1 = .ok stats) ∧
    dispatchStep cfgSet alwaysFail sampleTemplate 7 (0, 0, []) sampleContact =
      (0, 0 + 1, log_email [] sampleContact.email
        (personalize_email sampleTemplate.subject sampleContact) "failed" 7 "boom") :=
  ⟨(transport_failure_recovered sampleDB cfgSet alwaysFail "camp" 7
      { name := "camp", template_id := "t1", contact_list_ids := ["l1"] }
      sampleTemplate rfl rfl).1,
   (transport_failure_recovered sampleDB cfgSet alwaysFail "camp" 7
      { name := "camp", template_id := "t1", contact_list_ids := ["l1"] }
      sampleTemplate rfl rfl).2 0 0 [] sampleContact "boom" (by decide) rfl⟩

/-- Counterexample to C5 as stated: with the SMTP server unconfigured, a
run attempts one recipient (counted as failed, `total = 1`) yet appends
zero log entries — not one entry per attempted recipient. -/
theorem sendCampaign_attempt_without_log :
    (send_campaign sampleDB cfgUnset alwaysOk "camp" 7).1 = .ok ⟨0, 1, 1⟩ ∧
    (send_campaign sampleDB cfgUnset alwaysOk "camp" 7).2.email_logs.length = 0 ∧
    (send_campaign sampleDB cfgUnset alwaysOk "camp" 7).2.email_logs.length ≠
      sampleDB.email_logs.length + 1 :=
  ⟨rfl, rfl, by decide⟩

/-- C5 (amended): provided the SMTP server is configured, a completed
run appends exactly one log entry per attempted recipient (appending at
the end of the log), mutates the campaigns collection exactly once — by
the single end-of-run write-back on the dispatched campaign — and writes
nothing else (templates, lists, contacts unchanged). -/
theorem sendCampaign_one_log_per_recipient
    (db : DB) (cfg : SmtpConfig) (tr : Transport) (name : String) (now : Nat) (stats : Stats)
    (hs : cfg.server ≠ "")
    (h : (send_campaign db cfg tr name now).1 = .ok stats) :
    (∃ newLogs, (send_campaign db cfg tr name now).2.email_logs = db.email_logs ++ newLogs ∧
      newLogs.length = stats.total) ∧
    (send_campaign db cfg tr name now).2.campaigns =
      updateFirstCampaign name (campaignWriteback stats.total stats.sent stats.failed now)
        db.campaigns ∧
    (send_campaign db cfg tr name now).2.templates = db.templates ∧
    (send_campaign db cfg tr name now).2.contact_lists = db.contact_lists ∧
    (send_campaign db cfg tr name now).2.contacts = db.contacts := by
  obtain ⟨cdoc, t, hc, ht, hstats, hdb⟩ := sendCampaign_ok_inv db cfg tr name now stats h
  subst hstats
  obtain ⟨newLogs, hlg, hlen⟩ := foldl_dispatch_logs cfg tr t now hs
    (dedupByEmail (resolveContacts db cdoc.contact_list_ids)) 0 0 db.email_logs
  rw [hdb]
  exact ⟨⟨newLogs, hlg, hlen⟩, rfl, rfl, rfl, rfl⟩

/-- Witness for the amended C5: the concrete one-recipient run with a
configured server. -/
theorem sendCampaign_one_log_per_recipient_witness :
    (send_campaign sampleDB cfgSet alwaysOk "camp" 7).1 = .ok ⟨1, 0, 1⟩ ∧
    ((∃ newLogs, (send_campaign sampleDB cfgSet alwaysOk "camp" 7).2.email_logs =
        sampleDB.email_logs ++ newLogs ∧ newLogs.length = (Stats.mk 1 0 1).total) ∧
      (send_campaign sampleDB cfgSet alwaysOk "camp" 7).2.campaigns =
        updateFirstCampaign "camp" (campaignWriteback 1 1 0 7) sampleDB.campaigns ∧
      (send_campaign sampleDB cfgSet alwaysOk "camp" 7).2.templates = sampleDB.templates ∧
      (send_campaign sampleDB cfgSet alwaysOk "camp" 7).2.contact_lists = sampleDB.contact_lists ∧
      (send_campaign sampleDB cfgSet alwaysOk "camp" 7).2.contacts = sampleDB.contacts) :=
  ⟨rfl, sendCampaign_one_log_per_recipient sampleDB cfgSet alwaysOk "camp" 7 ⟨1, 0, 1⟩
    (by decide) rfl⟩

/-- C6 evaluated at a failing input: the end-of-run write-back sets
status `sent`, the sent timestamp, and the sent/failed counts, and
stores the total under the misspelled key `total_recipient`, while the
`Campaign` dataclass field `total_recipients` keeps its stale value `0`
although the run's total is `1`. -/
theorem campaignWriteback_total_recipients_stale :
    (send_campaign sampleDB cfgSet alwaysOk "camp" 7).1 = .ok ⟨1, 0, 1⟩ ∧
    (findCampaign (send_campaign sampleDB cfgSet alwaysOk "camp" 7).2 "camp").map
      (fun d => (d.status, d.sent_at, d.sent_count, d.failed_count,
        d.total_recipient, d.total_recipients)) =
      some ("sent", some 7, 1, 0, some 1, 0) :=
  ⟨rfl, rfl⟩

/-- C7: a dispatch on an existing campaign and template whose lists
resolve to no recipients returns `\x7bsent: 0, failed: 0, total: 0\x7d`
and still flips the campaign's status to `sent`. -/
theorem sendCampaign_zero_recipients
    (db : DB) (cfg : SmtpConfig) (tr : Transport) (name : String) (now : Nat)
    (cdoc : CampaignDoc) (t : EmailTemplate)
    (h1 : findCampaign db name = some cdoc)
    (h2 : findTemplate db cdoc.template_id = some t)
    (h3 : resolveContacts db cdoc.contact_list_ids = []) :
    (send_campaign db cfg tr name now).1 = .ok ⟨0, 0, 0⟩ ∧
    ∃ d, findCampaign (send_campaign db cfg tr name now).2 name = some d ∧
      d.status = "sent" := by
  constructor
  · simp only [send_campaign, h1, h2, h3]
    rfl
  · refine ⟨campaignWriteback 0 0 0 now cdoc, ?_, rfl⟩
    have hupd : (send_campaign db cfg tr name now).2.campaigns =
        updateFirstCampaign name (campaignWriteback 0 0 0 now) db.campaigns := by
      simp only [send_campaign, h1, h2, h3]
      rfl
    simp only [findCampaign] at h1 ⊢
    rw [hupd, find?_updateFirstCampaign name _ (campaignWriteback_name 0 0 0 now), h1]
    rfl

/-- Witness for C7: the campaign whose only list reference is gone. -/
theorem sendCampaign_zero_recipients_witness :
    (send_campaign goneListDB cfgSet alwaysOk "camp" 3).1 = .ok ⟨0, 0, 0⟩ ∧
    ∃ d, findCampaign (send_campaign goneListDB cfgSet alwaysOk "camp" 3).2 "camp" = some d ∧
      d.status = "sent" :=
  sendCampaign_zero_recipients goneListDB cfgSet alwaysOk "camp" 3
    { name := "camp", template_id := "t1", contact_list_ids := ["gone"] }
    sampleTemplate rfl rfl rfl

/-- C10: with the SMTP server name still empty, a dispatch over `n ≥ 1`
resolvable recipients does not raise: the precondition `ValueError` from
`send_single_email` is thrown before any logging and caught per
recipient, so the call returns `\x7bsent: 0, failed: n, total: n\x7d`
and appends no log entries. -/
theorem sendCampaign_unconfigured_smtp
    (db : DB) (cfg : SmtpConfig) (tr : Transport) (name : String) (now : Nat)
    (cdoc : CampaignDoc) (t : EmailTemplate) (n : Nat)
    (hs : cfg.server = "")
    (h1 : findCampaign db name = some cdoc)
    (h2 : findTemplate db cdoc.template_id = some t)
    (hn : n = (dedupByEmail (resolveContacts db cdoc.contact_list_ids)).length)
    (hpos : 1 ≤ n) :
    (send_campaign db cfg tr name now).1 = .ok ⟨0, n, n⟩ ∧
    (send_campaign db cfg tr name now).2.email_logs = db.email_logs := by
  have hloop := foldl_dispatch_unconfig cfg tr t now hs
    (dedupByEmail (resolveContacts db cdoc.contact_list_ids)) 0 0 db.email_logs
  constructor
  · simp only [send_campaign, h1, h2, hloop]
    rw [hn]
    simp
  · simp only [send_campaign, h1, h2, hloop]

/-- Witness for C10: the one-recipient database dispatched with the
initial (unconfigured) SMTP settings. -/
theorem sendCampaign_unconfigured_smtp_witness :
    (send_campaign sampleDB cfgUnset alwaysFail "camp" 9).1 = .ok ⟨0, 1, 1⟩ ∧
    (send_campaign sampleDB cfgUnset alwaysFail "camp" 9).2.email_logs =
      sampleDB.email_logs :=
  sendCampaign_unconfigured_smtp sampleDB cfgUnset alwaysFail "camp" 9
    { name := "camp", template_id := "t1", contact_list_ids := ["l1"] }
    sampleTemplate 1 rfl rfl rfl rfl (by decide)

/-! ## Helper lemmas about `replaceAll` -/

/-- Scanning an empty string yields an empty string, for any fuel. -/
lemma raf_nil (pat rep : List Char) (f : Nat) : replaceAllFuel pat rep f [] = [] := by
  cases f <;> rfl

/-- The fuel is irrelevant as soon as it covers the string length. -/
lemma raf_eq_of_le (pat rep : List Char) :
    ∀ (f₁ : Nat) (s : List Char) (f₂ : Nat), s.length ≤ f₁ → s.length ≤ f₂ →
      replaceAllFuel pat rep f₁ s = replaceAllFuel pat rep f₂ s := by
  intro f₁
  induction f₁ with
  | zero =>
    intro s f₂ h₁ h₂
    have : s = [] := List.eq_nil_of_length_eq_zero (Nat.le_zero.mp h₁)
    subst this
    rw [raf_nil, raf_nil]
  | succ k ih =>
    intro s f₂ h₁ h₂
    cases s with
    | nil => rw [raf_nil, raf_nil]
    | cons c cs =>
      cases f₂ with
      | zero => simp at h₂
      | succ m =>
        simp only [replaceAllFuel]
        have hlcs : cs.length ≤ k := by simp at h₁; omega
        have hlcs' : cs.length ≤ m := by simp at h₂; omega
        have hdrop : (cs.drop (pat.length - 1)).length ≤ cs.length := by
          simp [List.length_drop]
        split
        · rw [ih (cs.drop (pat.length - 1)) m (le_trans hdrop hlcs) (le_trans hdrop hlcs')]
        · rw [ih cs m hlcs hlcs']

/-- `replaceAll` on the empty string. -/
lemma replaceAll_nil (pat rep : List Char) : replaceAll pat rep [] = [] := by
  rw [replaceAll]
  split
  · rfl
  · exact raf_nil pat rep 0

/-- Unfolding `replaceAll` at a position where the pattern matches. -/
lemma replaceAll_cons_pos (pat rep : List Char) (c : Char) (cs : List Char)
    (hne : pat ≠ []) (hpre : startsWith pat (c :: cs) = true) :
    replaceAll pat rep (c :: cs) = rep ++ replaceAll pat rep (cs.drop (pat.length - 1)) := by
  have hie : pat.isEmpty = false := by
    cases pat
    · exact absurd rfl hne
    · rfl
  rw [replaceAll, replaceAll, hie]
  simp only [Bool.false_eq_true, if_false, List.length_cons, replaceAllFuel, hpre, if_true]
  rw [raf_eq_of_le pat rep cs.length (cs.drop (pat.length - 1))
    (cs.drop (pat.length - 1)).length (by simp [List.length_drop]) (le_refl _)]

/-- Unfolding `replaceAll` at a position where the pattern does not
match. -/
lemma replaceAll_cons_neg (pat rep : List Char) (c : Char) (cs : List Char)
    (hpre : startsWith pat (c :: cs) = false) :
    replaceAll pat rep (c :: cs) = c :: replaceAll pat rep cs := by
  have hne : pat ≠ [] := by
    intro h
    subst h
    simp [startsWith] at hpre
  have hie : pat.isEmpty = false := by
    cases pat
    · exact absurd rfl hne
    · rfl
  rw [replaceAll, replaceAll, hie]
  simp only [Bool.false_eq_true, if_false, List.length_cons, replaceAllFuel, hpre]

/-- A list starts with itself followed by anything. -/
lemma startsWith_append_self (p b : List Char) : startsWith p (p ++ b) = true := by
  induction p with
  | nil => rfl
  | cons a p ih => simp [startsWith, ih]

/-- Head mismatch refutes `startsWith`. -/
lemma startsWith_false_of_head_ne (p : Char) (ps : List Char) (c : Char) (cs : List Char)
    (h : p ≠ c) : startsWith (p :: ps) (c :: cs) = false := by
  simp [startsWith, h]

/-- Splitting `startsWith` on two cons cells. -/
lemma startsWith_cons_cons (a b : Char) (l₁ l₂ : List Char) :
    startsWith (a :: l₁) (b :: l₂) = true ↔ a = b ∧ startsWith l₁ l₂ = true := by
  by_cases h : a = b <;> simp [startsWith, h]

/-- If two close-brace-free names are each followed by a closing brace
and one such block starts with the other, the names coincide. -/
lemma startsWith_marker_eq :
    ∀ (p n x y : List Char), (∀ ch ∈ p, ch ≠ '\x7d') → (∀ ch ∈ n, ch ≠ '\x7d') →
      startsWith (p ++ '\x7d' :: x) (n ++ '\x7d' :: y) = true → p = n := by
  intro p
  induction p with
  | nil =>
    intro n x y hp hn h
    cases n with
    | nil => rfl
    | cons a n' =>
      rw [List.nil_append, List.cons_append] at h
      rcases (startsWith_cons_cons _ _ _ _).mp h with ⟨ha, -⟩
      exact absurd ha.symm (hn a (List.mem_cons_self _ _))
  | cons a p' ih =>
    intro n x y hp hn h
    cases n with
    | nil =>
      rw [List.cons_append, List.nil_append] at h
      rcases (startsWith_cons_cons _ _ _ _).mp h with ⟨ha, -⟩
      exact absurd ha (hp a (List.mem_cons_self _ _))
    | cons b n' =>
      rw [List.cons_append, List.cons_append] at h
      rcases (startsWith_cons_cons _ _ _ _).mp h with ⟨hab, h'⟩
      have := ih n' x y (fun ch hch => hp ch (List.mem_cons_of_mem _ hch))
        (fun ch hch => hn ch (List.mem_cons_of_mem _ hch)) h'
      rw [hab, this]

/-- If a full token pattern matches at the start of another rendered
token, the two names are equal. -/
lemma startsWith_tokStr_eq (p n b : List Char) (hp : BF p) (hn : BF n)
    (h : startsWith (tokStr p) (tokStr n ++ b) = true) : p = n := by
  rw [tokStr, tokStr, List.cons_append, List.cons_append] at h
  rcases (startsWith_cons_cons _ _ _ _).mp h with ⟨-, h⟩
  rcases (startsWith_cons_cons _ _ _ _).mp h with ⟨-, h⟩
  have hre : (n ++ ['\x7d', '\x7d']) ++ b = n ++ '\x7d' :: ('\x7d' :: b) := by
    simp
  have hre' : p ++ ['\x7d', '\x7d'] = p ++ '\x7d' :: ['\x7d'] := rfl
  rw [hre, hre'] at h
  exact startsWith_marker_eq p n ['\x7d'] ('\x7d' :: b)
    (fun ch hch => (hp ch hch).2) (fun ch hch => (hn ch hch).2) h

/-- Scanning skips over a chunk containing no opening brace when the
pattern starts with one. -/
lemma replaceAll_append_nonbrace (pat' rep : List Char) :
    ∀ (a b : List Char), (∀ ch ∈ a, ch ≠ '\x7b') →
      replaceAll ('\x7b' :: pat') rep (a ++ b) = a ++ replaceAll ('\x7b' :: pat') rep b := by
  intro a
  induction a with
  | nil => intro b _; rfl
  | cons c a' ih =>
    intro b ha
    have hc : c ≠ '\x7b' := ha c (List.mem_cons_self _ _)
    rw [List.cons_append,
      replaceAll_cons_neg _ _ _ _ (startsWith_false_of_head_ne _ _ _ _ (Ne.symm hc)),
      ih b (fun ch hch => ha ch (List.mem_cons_of_mem _ hch)), List.cons_append]

/-- Scanning a rendered token followed by a rest: the token is replaced
when its name equals the pattern's, and is skipped verbatim otherwise.
This is the heart of the "each placeholder is a fixed disjoint token"
argument. -/
lemma replaceAll_tokStr_cons (p n v b : List Char) (hp : BF p) (hn : BF n) :
    replaceAll (tokStr p) v (tokStr n ++ b) =
      (if n = p then v else tokStr n) ++ replaceAll (tokStr p) v b := by
  by_cases h : n = p
  · subst h
    rw [if_pos rfl]
    have hform : tokStr n ++ b = '\x7b' :: (('\x7b' :: (n ++ ['\x7d', '\x7d'])) ++ b) := by
      simp [tokStr]
    rw [hform, replaceAll_cons_pos _ _ _ _ (by simp [tokStr])
      (by rw [← hform]; exact startsWith_append_self _ _)]
    congr 1
    have hlen : ('\x7b' :: (n ++ ['\x7d', '\x7d'])).length = (tokStr n).length - 1 := by
      simp [tokStr]
    rw [show (('\x7b' :: (n ++ ['\x7d', '\x7d'])) ++ b).drop ((tokStr n).length - 1) = b from by
      rw [← hlen]; exact List.drop_left _ _]
  · rw [if_neg h]
    have hsw0 : startsWith (tokStr p) (tokStr n ++ b) = false := by
      cases hsw : startsWith (tokStr p) (tokStr n ++ b)
      · rfl
      · exact absurd (startsWith_tokStr_eq p n b hp hn hsw).symm h
    have hform : tokStr n ++ b = '\x7b' :: ('\x7b' :: ((n ++ ['\x7d', '\x7d']) ++ b)) := by
      simp [tokStr]
    rw [hform] at hsw0
    rw [hform, replaceAll_cons_neg _ _ _ _ hsw0]
    have hsw1 : startsWith (tokStr p) ('\x7b' :: ((n ++ ['\x7d', '\x7d']) ++ b)) = false := by
      rw [tokStr]
      cases hsw : startsWith ('\x7b' :: '\x7b' :: (p ++ ['\x7d', '\x7d']))
          ('\x7b' :: ((n ++ ['\x7d', '\x7d']) ++ b))
      · rfl
      · rcases (startsWith_cons_cons _ _ _ _).mp hsw with ⟨-, hsw'⟩
        cases n with
        | nil =>
          rcases (startsWith_cons_cons _ _ _ _).mp hsw' with ⟨hbad, -⟩
          simp at hbad
        | cons a n' =>
          rw [List.cons_append, List.cons_append] at hsw'
          rcases (startsWith_cons_cons _ _ _ _).mp hsw' with ⟨hbad, -⟩
          exact absurd hbad.symm (hn a (List.mem_cons_self _ _)).1
    rw [replaceAll_cons_neg _ _ _ _ hsw1]
    have hre : (n ++ ['\x7d', '\x7d']) ++ b = n ++ ('\x7d' :: '\x7d' :: b) := by simp
    rw [hre, show tokStr p = '\x7b' :: ('\x7b' :: (p ++ ['\x7d', '\x7d'])) from rfl,
      replaceAll_append_nonbrace _ _ n ('\x7d' :: '\x7d' :: b) (fun ch hch => (hn ch hch).1)]
    rw [replaceAll_cons_neg _ _ _ _ (startsWith_false_of_head_ne _ _ _ _ (by decide)),
      replaceAll_cons_neg _ _ _ _ (startsWith_false_of_head_ne _ _ _ _ (by decide))]
    simp [tokStr]

/-! ## Personalization acts segment-wise on well-formed templates -/

/-- One `replaceAll` with a token pattern acts segment-wise on a
rendered well-formed template: it turns exactly the tokens named `p`
into the (brace-free) replacement and touches nothing else. -/
lemma replaceAll_render (p v : List Char) (hp : BF p) (hv : BF v) :
    ∀ segs, WFs segs →
      replaceAll (tokStr p) v (render segs) = render (segs.map (substSeg p v)) := by
  intro segs
  induction segs with
  | nil => intro _; simp [render, replaceAll_nil]
  | cons s ss ih =>
    intro hwf
    have hs := hwf s (List.mem_cons_self _ _)
    have hss : WFs ss := fun x hx => hwf x (List.mem_cons_of_mem _ hx)
    cases s with
    | lit l =>
      have hl : BF l := hs
      rw [List.map_cons, render, render, renderSeg, substSeg, renderSeg,
        show tokStr p = '\x7b' :: ('\x7b' :: (p ++ ['\x7d', '\x7d'])) from rfl,
        replaceAll_append_nonbrace _ _ l (render ss) (fun ch hch => (hl ch hch).1)]
      exact congrArg (l ++ ·) (ih hss)
    | tok n =>
      have hn : BF n := hs
      rw [List.map_cons, render, renderSeg,
        replaceAll_tokStr_cons p n v (render ss) hp hn, ih hss, render, substSeg]
      by_cases h : n = p
      · rw [if_pos h, if_pos h, renderSeg]
      · rw [if_neg h, if_neg h, renderSeg]

/-- Segment-wise substitution with a brace-free value preserves
well-formedness. -/
lemma WFs_map_substSeg (p v : List Char) (hv : BF v) (segs : List Seg) (h : WFs segs) :
    WFs (segs.map (substSeg p v)) := by
  intro s hsmem
  obtain ⟨s₀, hs₀, rfl⟩ := List.mem_map.mp hsmem
  cases s₀ with
  | lit l => exact h _ hs₀
  | tok n =>
    rw [substSeg]
    by_cases hnp : n = p
    · rw [if_pos hnp]; exact hv
    · rw [if_neg hnp]; exact h _ hs₀

/-- A whole clean substitution list acts segment-wise on a rendered
well-formed template. -/
lemma applySubsts_render :
    ∀ (subs : List (List Char × List Char)) (segs : List Seg),
      cleanSubsProp subs → WFs segs →
      applySubsts subs (render segs) =
        render (segs.map (fun s => subs.foldl (fun t pv => substSeg pv.1 pv.2 t) s)) := by
  intro subs
  induction subs with
  | nil =>
    intro segs _ _
    simp [applySubsts]
  | cons pv rest ih =>
    intro segs hcl hwf
    have hp := (hcl pv (List.mem_cons_self _ _)).1
    have hv := (hcl pv (List.mem_cons_self _ _)).2
    have hrest : cleanSubsProp rest := fun q hq => hcl q (List.mem_cons_of_mem _ hq)
    calc applySubsts (pv :: rest) (render segs)
        = applySubsts rest (replaceAll (tokStr pv.1) pv.2 (render segs)) := by
          simp [applySubsts]
      _ = applySubsts rest (render (segs.map (substSeg pv.1 pv.2))) := by
          rw [replaceAll_render pv.1 pv.2 hp hv segs hwf]
      _ = render ((segs.map (substSeg pv.1 pv.2)).map
            (fun s => rest.foldl (fun t q => substSeg q.1 q.2 t) s)) := by
          rw [ih (segs.map (substSeg pv.1 pv.2)) hrest (WFs_map_substSeg pv.1 pv.2 hv segs hwf)]
      _ = render (segs.map (fun s => (pv :: rest).foldl (fun t q => substSeg q.1 q.2 t) s)) := by
          rw [List.map_map]
          rfl

/-- Literal chunks are fixed points of every substitution fold. -/
lemma foldl_substSeg_lit (subs : List (List Char × List Char)) (l : List Char) :
    subs.foldl (fun t pv => substSeg pv.1 pv.2 t) (Seg.lit l) = Seg.lit l := by
  induction subs with
  | nil => rfl
  | cons pv rest ih => simpa [substSeg] using ih

/-- A token folds to the value of the first substitution carrying its
name, and stays verbatim when no substitution does. -/
lemma foldl_substSeg_tok (subs : List (List Char × List Char)) (n : List Char) :
    subs.foldl (fun t pv => substSeg pv.1 pv.2 t) (Seg.tok n) =
      (match lookupN n subs with
       | some v => Seg.lit v
       | none => Seg.tok n) := by
  induction subs with
  | nil => rfl
  | cons pv rest ih =>
    rw [List.foldl_cons, substSeg, lookupN]
    by_cases h : n = pv.1
    · rw [if_pos h, if_pos h.symm, foldl_substSeg_lit]
    · rw [if_neg h, if_neg (Ne.symm h), ih]

/-- The substitution list of a contact starts exactly with the five
fixed placeholders, so its first-match lookup is `recog`. -/
lemma lookupN_substNames (c : Contact) (n : List Char) :
    lookupN n (substNames c) = recog c n := rfl

/-! ## Relating `personalize_email` to its substitution list -/

/-- Data of a custom-field token pattern. -/
lemma custom_pattern_data (k : String) :
    ("\x7b\x7bcustom." ++ k ++ "\x7d\x7d").data = tokStr ("custom.".data ++ k.data) := by
  simp [String.data_append, tokStr]

/-- The custom-field fold of `personalize_email`, at the character
level. -/
lemma customFold_data (fields : List (String × String)) :
    ∀ content : String,
      (fields.foldl
        (fun content kv => strReplace content ("\x7b\x7bcustom." ++ kv.1 ++ "\x7d\x7d") kv.2)
        content).data =
      applySubsts (fields.map (fun kv => ("custom.".data ++ kv.1.data, kv.2.data)))
        content.data := by
  induction fields with
  | nil => intro content; rfl
  | cons kv rest ih =>
    intro content
    rw [List.foldl_cons, ih, List.map_cons]
    show applySubsts _ (replaceAll ("\x7b\x7bcustom." ++ kv.1 ++ "\x7d\x7d").data
      kv.2.data content.data) = _
    rw [custom_pattern_data]
    simp [applySubsts]

/-- Splitting `applySubsts` along an append of substitution lists. -/
lemma applySubsts_append (l₁ l₂ : List (List Char × List Char)) (s : List Char) :
    applySubsts (l₁ ++ l₂) s = applySubsts l₂ (applySubsts l₁ s) :=
  List.foldl_append _ _ _ _

/-- `personalize_email` is the run of the contact's substitution list
over the template, at the character level. -/
lemma personalize_data (t : String) (c : Contact) :
    (personalize_email t c).data = applySubsts (substNames c) t.data := by
  rw [personalize_email, substNames, applySubsts_append, customFold_data]
  rfl

/-! ## Brace-freeness transfer -/

/-- The Boolean and propositional brace-freeness checks agree. -/
lemma braceFreeB_iff (l : List Char) : braceFreeB l = true ↔ BF l := by
  simp [braceFreeB, BF, List.all_eq_true]

/-- Stripping preserves brace-freeness (it only removes characters). -/
lemma BF_pyStrip (l : List Char) (h : BF l) : BF (pyStrip l) := by
  intro ch hch
  apply h
  rw [pyStrip] at hch
  rw [List.mem_reverse] at hch
  have hch2 := (List.dropWhile_sublist (l := (l.dropWhile isPySpace).reverse)
    (p := isPySpace)).subset hch
  rw [List.mem_reverse] at hch2
  exact (List.dropWhile_sublist (l := l) (p := isPySpace)).subset hch2

/-- Brace-freeness of an append. -/
lemma BF_append (a b : List Char) (ha : BF a) (hb : BF b) : BF (a ++ b) := by
  intro ch hch
  rcases List.mem_append.mp hch with h | h
  · exact ha ch h
  · exact hb ch h

/-- A clean contact yields a clean substitution list. -/
lemma cleanContact_substNames (c : Contact) (h : cleanContact c = true) :
    cleanSubsProp (substNames c) := by
  rw [cleanContact] at h
  simp only [Bool.and_eq_true, List.all_eq_true] at h
  obtain ⟨⟨⟨⟨h1, h2⟩, h3⟩, h4⟩, h5⟩ := h
  rw [braceFreeB_iff] at h1 h2 h3 h4
  intro pv hpv
  rw [substNames] at hpv
  rcases List.mem_append.mp hpv with hm | hm
  · have hsp : BF (" " : String).data := (braceFreeB_iff _).mp (by decide)
    have hfull : BF (pyStrip ((c.first_name ++ " " ++ c.last_name).data)) := by
      apply BF_pyStrip
      rw [String.data_append, String.data_append]
      exact BF_append _ _ (BF_append _ _ h1 hsp) h2
    simp only [List.mem_cons, List.mem_singleton] at hm
    rcases hm with rfl | rfl | rfl | rfl | rfl | hm
    · exact ⟨(braceFreeB_iff "first_name".data).mp (by decide), h1⟩
    · exact ⟨(braceFreeB_iff "last_name".data).mp (by decide), h2⟩
    · exact ⟨(braceFreeB_iff "email".data).mp (by decide), h3⟩
    · exact ⟨(braceFreeB_iff "company".data).mp (by decide), h4⟩
    · exact ⟨(braceFreeB_iff "full_name".data).mp (by decide), hfull⟩
    · simp at hm
  · obtain ⟨kv, hkv, rfl⟩ := List.mem_map.mp hm
    obtain ⟨hk, hv2⟩ := h5 kv hkv
    exact ⟨BF_append _ _ ((braceFreeB_iff _).mp (by decide)) ((braceFreeB_iff _).mp hk),
      (braceFreeB_iff _).mp hv2⟩

/-- The Boolean and propositional segment checks agree. -/
lemma segWFB_iff (s : Seg) : segWFB s = true ↔ SegBF s := by
  cases s <;> simp [segWFB, SegBF, braceFreeB_iff]

/-- The Boolean and propositional template checks agree. -/
lemma wfSegsB_iff (segs : List Seg) : wfSegsB segs = true ↔ WFs segs := by
  simp [wfSegsB, WFs, List.all_eq_true, segWFB_iff]

/-! ## First-match lookup under permutation -/

/-- Lookup misses exactly when the name is absent from the keys. -/
lemma lookupN_eq_none_iff (n : List Char) :
    ∀ subs, lookupN n subs = none ↔ n ∉ subs.map Prod.fst := by
  intro subs
  induction subs with
  | nil => simp [lookupN]
  | cons pv rest ih =>
    rw [lookupN]
    by_cases h : pv.1 = n
    · simp [h]
    · simp [h, ih, Ne.symm h]

/-- With duplicate-free keys, lookup finds exactly the list's entry. -/
lemma lookupN_eq_some_iff (n v : List Char) :
    ∀ subs, (subs.map Prod.fst).Nodup → (lookupN n subs = some v ↔ (n, v) ∈ subs) := by
  intro subs
  induction subs with
  | nil => simp [lookupN]
  | cons pv rest ih =>
    intro hnd
    rw [List.map_cons, List.nodup_cons] at hnd
    rw [lookupN]
    by_cases h : pv.1 = n
    · rw [if_pos h]
      constructor
      · intro hv
        have hv2 := Option.some.inj hv
        exact List.mem_cons.mpr (Or.inl (by rw [← h, ← hv2]))
      · intro hv
        rcases List.mem_cons.mp hv with hv | hv
        · rw [← hv]
        · exact absurd (List.mem_map.mpr ⟨(n, v), hv, h.symm⟩) hnd.1
    · rw [if_neg h, ih hnd.2]
      constructor
      · exact fun hv => List.mem_cons_of_mem _ hv
      · intro hv
        rcases List.mem_cons.mp hv with hv | hv
        · exact absurd (congrArg Prod.fst hv.symm) h
        · exact hv

/-- With duplicate-free keys, first-match lookup is invariant under
permutation of the substitution list. -/
lemma lookupN_perm (l₁ l₂ : List (List Char × List Char)) (h : l₁.Perm l₂)
    (hnd : (l₁.map Prod.fst).Nodup) (n : List Char) :
    lookupN n l₁ = lookupN n l₂ := by
  have hnd₂ : (l₂.map Prod.fst).Nodup := ((h.map Prod.fst).nodup_iff).mp hnd
  cases hv : lookupN n l₁ with
  | some v =>
    exact ((lookupN_eq_some_iff n v l₂ hnd₂).mpr
      (h.mem_iff.mp ((lookupN_eq_some_iff n v l₁ hnd).mp hv))).symm
  | none =>
    have h1 := (lookupN_eq_none_iff n l₁).mp hv
    have h2 : n ∉ l₂.map Prod.fst := fun hmem => h1 (((h.map Prod.fst).mem_iff).mpr hmem)
    exact ((lookupN_eq_none_iff n l₂).mpr h2).symm

/-! ## Claim theorems: personalization -/

/-- Counterexample to C8 as stated: personalization is not a pure
per-token replacement for every contact.  With the well-formed template
`\x7b\x7bfirst_name\x7d\x7d` and a contact whose first name is the text
`\x7b\x7bemail\x7d\x7d`, the value substituted for `first_name` is
itself rewritten by the later `email` substitution, so the occurrence of
the recognized `first_name` placeholder does not end up replaced by the
contact's first-name value. -/
theorem personalize_email_injection_cx :
    wfSegsB [Seg.tok "first_name".data] = true ∧
    personalize_email (String.mk (render [Seg.tok "first_name".data]))
        { email := "E", first_name := "\x7b\x7bemail\x7d\x7d" } = "E" ∧
    String.mk (specPersonalize { email := "E", first_name := "\x7b\x7bemail\x7d\x7d" }
      [Seg.tok "first_name".data]) = "\x7b\x7bemail\x7d\x7d" ∧
    personalize_email (String.mk (render [Seg.tok "first_name".data]))
        { email := "E", first_name := "\x7b\x7bemail\x7d\x7d" } ≠
      String.mk (specPersonalize { email := "E", first_name := "\x7b\x7bemail\x7d\x7d" }
        [Seg.tok "first_name".data]) :=
  ⟨by decide, by decide, by decide, by decide⟩

/-- C8 (amended): on a template made of brace-free literal chunks and
placeholder tokens, and for a contact none of whose values or custom
keys contains a brace, `personalize_email` performs exactly the
simultaneous per-token replacement: every occurrence of each recognized
placeholder becomes the contact's value (`recog`), unrecognized
placeholders — including `custom` tokens for absent keys — and literal
text stay verbatim. -/
theorem personalize_email_replaces_tokens (segs : List Seg) (c : Contact)
    (h1 : wfSegsB segs = true) (h2 : cleanContact c = true) :
    personalize_email (String.mk (render segs)) c = String.mk (specPersonalize c segs) := by
  apply String.ext
  rw [personalize_data]
  show applySubsts (substNames c) (render segs) = specPersonalize c segs
  have hw : WFs segs := (wfSegsB_iff segs).mp h1
  have hcl : cleanSubsProp (substNames c) := cleanContact_substNames c h2
  rw [applySubsts_render (substNames c) segs hcl hw, specPersonalize]
  have hfun : (fun s => (substNames c).foldl (fun t pv => substSeg pv.1 pv.2 t) s) =
      specSubstSeg c := by
    funext s
    cases s with
    | lit l => rw [foldl_substSeg_lit]; rfl
    | tok n =>
      rw [foldl_substSeg_tok, lookupN_substNames]
      cases hrec : recog c n <;> simp [specSubstSeg, hrec]
  rw [hfun]

/-- Witness for the amended C8: the spec scenario
`Hi \x7b\x7bfirst_name\x7d\x7d!` with contact `Ana` personalizes to
`Hi Ana!`, which is what the simultaneous specification produces. -/
theorem personalize_email_replaces_tokens_witness :
    String.mk (render [Seg.lit "Hi ".data, Seg.tok "first_name".data, Seg.lit "!".data]) =
      "Hi \x7b\x7bfirst_name\x7d\x7d!" ∧
    String.mk (specPersonalize { email := "ana@x.com", first_name := "Ana" }
      [Seg.lit "Hi ".data, Seg.tok "first_name".data, Seg.lit "!".data]) = "Hi Ana!" ∧
    wfSegsB [Seg.lit "Hi ".data, Seg.tok "first_name".data, Seg.lit "!".data] = true ∧
    cleanContact { email := "ana@x.com", first_name := "Ana" } = true ∧
    personalize_email (String.mk (render [Seg.lit "Hi ".data, Seg.tok "first_name".data,
        Seg.lit "!".data])) { email := "ana@x.com", first_name := "Ana" } =
      String.mk (specPersonalize { email := "ana@x.com", first_name := "Ana" }
        [Seg.lit "Hi ".data, Seg.tok "first_name".data, Seg.lit "!".data]) :=
  ⟨by decide, by decide, by decide, by decide,
    personalize_email_replaces_tokens _ _ (by decide) (by decide)⟩

/-- Counterexample to C9 as stated: the order of the per-placeholder
substitutions is observable.  For the contact with first name
`\x7b\x7blast_name\x7d\x7d` and last name `Z`, running the `last_name`
substitution before the `first_name` one (a permutation of the list
`personalize_email` uses) yields a different string on the template
`\x7b\x7bfirst_name\x7d\x7d`. -/
theorem applySubsts_order_dependent_cx :
    (("last_name".data, "Z".data) ::
     ("first_name".data, "\x7b\x7blast_name\x7d\x7d".data) ::
     ("email".data, "e".data) ::
     ("company".data, "".data) ::
     ("full_name".data,
       pyStrip ((("\x7b\x7blast_name\x7d\x7d" : String) ++ " " ++ "Z").data)) :: []).Perm
      (substNames ⟨"e", "\x7b\x7blast_name\x7d\x7d", "Z", "", []⟩) ∧
    applySubsts
      (("last_name".data, "Z".data) ::
       ("first_name".data, "\x7b\x7blast_name\x7d\x7d".data) ::
       ("email".data, "e".data) ::
       ("company".data, "".data) ::
       ("full_name".data,
         pyStrip ((("\x7b\x7blast_name\x7d\x7d" : String) ++ " " ++ "Z").data)) :: [])
      ("\x7b\x7bfirst_name\x7d\x7d" : String).data ≠
    applySubsts (substNames ⟨"e", "\x7b\x7blast_name\x7d\x7d", "Z", "", []⟩)
      ("\x7b\x7bfirst_name\x7d\x7d" : String).data := by
  constructor
  · exact List.Perm.swap _ _ _
  · decide

/-- C9 (amended): on a well-formed template and a brace-free contact
whose substitution list has duplicate-free names, running the
per-placeholder substitutions in any order yields the same output
string as the order `personalize_email` uses. -/
theorem personalize_order_irrelevant (segs : List Seg) (c : Contact)
    (subs : List (List Char × List Char))
    (h1 : wfSegsB segs = true) (h2 : cleanContact c = true)
    (hnd : ((substNames c).map Prod.fst).Nodup)
    (hperm : subs.Perm (substNames c)) :
    applySubsts subs (render segs) = applySubsts (substNames c) (render segs) := by
  have hw : WFs segs := (wfSegsB_iff segs).mp h1
  have hcl : cleanSubsProp (substNames c) := cleanContact_substNames c h2
  have hclsubs : cleanSubsProp subs := fun pv hpv => hcl pv (hperm.subset hpv)
  have hndsubs : (subs.map Prod.fst).Nodup := ((hperm.map Prod.fst).nodup_iff).mpr hnd
  rw [applySubsts_render subs segs hclsubs hw,
    applySubsts_render (substNames c) segs hcl hw]
  have hfun : (fun s => subs.foldl (fun t pv => substSeg pv.1 pv.2 t) s) =
      (fun s => (substNames c).foldl (fun t pv => substSeg pv.1 pv.2 t) s) := by
    funext s
    cases s with
    | lit l => rw [foldl_substSeg_lit, foldl_substSeg_lit]
    | tok n =>
      rw [foldl_substSeg_tok, foldl_substSeg_tok,
        lookupN_perm subs (substNames c) hperm hndsubs n]
  rw [hfun]

/-- Witness for the amended C9: swapping the first two substitutions of
a concrete clean contact leaves the personalization of
`\x7b\x7bfirst_name\x7d\x7d` unchanged. -/
theorem personalize_order_irrelevant_witness :
    (("last_name".data, "B".data) ::
     ("first_name".data, "Ana".data) ::
     ("email".data, "ana@x.com".data) ::
     ("company".data, "Co".data) ::
     ("full_name".data, pyStrip ((("Ana" : String) ++ " " ++ "B").data)) :: []).Perm
      (substNames ⟨"ana@x.com", "Ana", "B", "Co", []⟩) ∧
    applySubsts
      (("last_name".data, "B".data) ::
       ("first_name".data, "Ana".data) ::
       ("email".data, "ana@x.com".data) ::
       ("company".data, "Co".data) ::
       ("full_name".data, pyStrip ((("Ana" : String) ++ " " ++ "B").data)) :: [])
      (render [Seg.tok "first_name".data]) =
    applySubsts (substNames ⟨"ana@x.com", "Ana", "B", "Co", []⟩)
      (render [Seg.tok "first_name".data]) := by
  have hp : (("last_name".data, "B".data) ::
      ("first_name".data, "Ana".data) ::
      ("email".data, "ana@x.com".data) ::
      ("company".data, "Co".data) ::
      ("full_name".data, pyStrip ((("Ana" : String) ++ " " ++ "B").data)) :: []).Perm
        (substNames ⟨"ana@x.com", "Ana", "B", "Co", []⟩) :=
    List.Perm.swap _ _ _
  exact ⟨hp, personalize_order_irrelevant [Seg.tok "first_name".data]
    ⟨"ana@x.com", "Ana", "B", "Co", []⟩ _ (by decide) (by decide) (by decide) hp⟩

end EmailCamp
